import Mathlib

/-!
Shallow embedding of the resume-to-job matching core of
`smart_resume_matcher` (src/script.js): skill extraction,
per-job scoring, matched/missing skill derivation, and ranking.
-/

namespace SmartResumeMatcher

/-- JS `String.prototype.toLowerCase` on the ASCII skill strings used here:
lower-case every character. -/
def jsToLower (s : String) : String := ⟨s.data.map Char.toLower⟩

/-- Substring occurrence on character lists: `containsSub needle hay` is true
iff `needle` occurs contiguously inside `hay`. -/
def containsSub (needle : List Char) : List Char → Bool
  | [] => needle.isEmpty
  | c :: rest => needle.isPrefixOf (c :: rest) || containsSub needle rest

/-- JS `s.includes(sub)`. -/
def jsIncludes (s sub : String) : Bool := containsSub sub.data s.data

/-- The inline skill-equivalence predicate of `calculateMatchScore`
(script.js lines 228-231): symmetric case-insensitive containment. -/
def skillEquiv (resumeSkill skill : String) : Bool :=
  jsIncludes (jsToLower resumeSkill) (jsToLower skill) ||
  jsIncludes (jsToLower skill) (jsToLower resumeSkill)

/-- `resumeSkills.some(resumeSkill => ...)` as used in the score and
matched/missing computations. -/
def anyResumeSkillMatches (resumeSkills : List String) (skill : String) : Bool :=
  resumeSkills.any (fun resumeSkill => skillEquiv resumeSkill skill)

/-- A job record of the catalog (`data/job_descriptions.json`).  The two
skill-list fields and the source URL may be absent, which the JS code sees
as `undefined`; absence is modelled by `none`. -/
structure Job where
  title : String
  company : String
  location : String
  description : String
  requirements : Option (List String)
  nice_to_have : Option (List String)
  source_url : Option String
deriving DecidableEq, Repr

/-- The fixed vocabulary of `extractSkills` (script.js lines 197-206). -/
def commonSkills : List String :=
  ["Python", "JavaScript", "Java", "C++", "C#", "PHP", "Ruby", "Go", "Rust",
   "React", "Angular", "Vue", "Node.js", "Express", "Django", "Flask", "FastAPI",
   "SQL", "PostgreSQL", "MySQL", "MongoDB", "Redis", "Docker", "Kubernetes",
   "AWS", "Azure", "GCP", "Git", "GitHub", "CI/CD", "Jenkins", "Travis",
   "Machine Learning", "AI", "TensorFlow", "PyTorch", "Scikit-learn",
   "Data Science", "Pandas", "NumPy", "Matplotlib", "Seaborn",
   "HTML", "CSS", "SASS", "Bootstrap", "Tailwind", "TypeScript",
   "REST API", "GraphQL", "Microservices", "Agile", "Scrum"]

/-- `extractSkills` (script.js lines 196-218): keep every vocabulary skill
whose lower-cased form occurs in the lower-cased resume text. -/
def extractSkills (resumeContent : String) : List String :=
  let resumeLower := jsToLower resumeContent
  commonSkills.filter (fun skill => jsIncludes resumeLower (jsToLower skill))

/-- JS `Math.round` on the exact rational value: round half away from zero
toward positive infinity, i.e. `⌊x + 1/2⌋`. -/
def jsRound (q : ℚ) : Int := ⌊q + 1 / 2⌋

/-- `calculateMatchScore` (script.js lines 221-245). -/
def calculateMatchScore (resumeSkills : List String) (job : Job) : Int :=
  let requiredSkills := job.requirements.getD []
  let niceToHaveSkills := job.nice_to_have.getD []
  if requiredSkills.length = 0 then 0
  else
    let requiredMatches := (requiredSkills.filter (anyResumeSkillMatches resumeSkills)).length
    let niceToHaveMatches := (niceToHaveSkills.filter (anyResumeSkillMatches resumeSkills)).length
    let requiredScore : ℚ := ((requiredMatches : ℚ) / (requiredSkills.length : ℚ)) * 80
    let niceToHaveScore : ℚ :=
      ((niceToHaveMatches : ℚ) / ((max niceToHaveSkills.length 1 : Nat) : ℚ)) * 20
    jsRound (requiredScore + niceToHaveScore)

/-- `getMatchedSkills` (script.js lines 248-255). -/
def getMatchedSkills (resumeSkills jobRequirements : List String) : List String :=
  jobRequirements.filter (anyResumeSkillMatches resumeSkills)

/-- `getMissingSkills` (script.js lines 258-265). -/
def getMissingSkills (resumeSkills jobRequirements : List String) : List String :=
  jobRequirements.filter (fun skill => !(anyResumeSkillMatches resumeSkills skill))

/-- One entry of the result list built in `analyzeResume`
(script.js lines 183-188): the spread of the job record plus the three
computed fields. -/
structure MatchResult where
  title : String
  company : String
  location : String
  description : String
  requirements : Option (List String)
  nice_to_have : Option (List String)
  source_url : Option String
  matchScore : Int
  matchedSkills : List String
  missingSkills : List String
deriving DecidableEq, Repr

/-- The per-job body of the `forEach` in `analyzeResume` (script.js lines
178-189).  When `job.requirements` is absent, `getMatchedSkills` receives
`undefined` and `jobRequirements.filter` throws a TypeError, modelled as
`Except.error`; `calculateMatchScore` itself guards with `|| []` and does
not throw. -/
def mkMatchResult (resumeSkills : List String) (job : Job) : Except String MatchResult :=
  match job.requirements with
  | none => Except.error "TypeError: undefined has no method filter"
  | some reqs =>
      Except.ok
        { title := job.title
          company := job.company
          location := job.location
          description := job.description
          requirements := job.requirements
          nice_to_have := job.nice_to_have
          source_url := job.source_url
          matchScore := calculateMatchScore resumeSkills job
          matchedSkills := getMatchedSkills resumeSkills reqs
          missingSkills := getMissingSkills resumeSkills reqs }

/-- The `forEach`/push loop of `analyzeResume`: an exception thrown for one
job aborts the whole loop, so the list is produced only if every job
succeeds. -/
def buildMatches (resumeSkills : List String) : List Job → Except String (List MatchResult)
  | [] => Except.ok []
  | job :: rest =>
      match mkMatchResult resumeSkills job with
      | Except.error e => Except.error e
      | Except.ok r =>
          match buildMatches resumeSkills rest with
          | Except.error e => Except.error e
          | Except.ok rs => Except.ok (r :: rs)

/-- Stable insertion step for the descending sort: `x` goes in front of the
first element whose score does not exceed it. -/
def insertByScoreDesc (x : MatchResult) : List MatchResult → List MatchResult
  | [] => [x]
  | y :: ys =>
      if y.matchScore ≤ x.matchScore then x :: y :: ys
      else y :: insertByScoreDesc x ys

/-- `matches.sort((a, b) => b.matchScore - a.matchScore)` (script.js line
192): ECMAScript `Array.prototype.sort` is specified to be stable, and a
stable sort under this comparator is exactly insertion sort by descending
`matchScore`. -/
def sortByScoreDesc (l : List MatchResult) : List MatchResult :=
  l.foldr insertByScoreDesc []

/-- `analyzeResume` (script.js lines 174-193). -/
def analyzeResume (resumeContent : String) (jobs : List Job) : Except String (List MatchResult) :=
  let resumeSkills := extractSkills resumeContent
  match buildMatches resumeSkills jobs with
  | Except.error e => Except.error e
  | Except.ok ms => Except.ok (sortByScoreDesc ms)

/-- The spec's version of the matched-skill set (spec §4.2 step 5): drawn
from the union of required and nice-to-have skills.  Stated only to compare
with `getMatchedSkills`, which the code applies to `requirements` alone. -/
def matchedSkillsSpec (resumeSkills : List String) (job : Job) : List String :=
  (job.requirements.getD [] ++ job.nice_to_have.getD []).filter
    (anyResumeSkillMatches resumeSkills)

/-! ### Concrete test vectors -/

/-- Scenario 1 of the spec: three required skills, no nice-to-have. -/
def scenario1Job : Job :=
  { title := "Fullstack Engineer", company := "Acme", location := "Remote",
    description := "Build the product",
    requirements := some ["Python", "React", "AWS"], nice_to_have := some [],
    source_url := none }

/-- The record `analyzeResume` produces for `scenario1Job` against the
Scenario 1 resume text. -/
def scenario1Result : MatchResult :=
  { title := "Fullstack Engineer", company := "Acme", location := "Remote",
    description := "Build the product",
    requirements := some ["Python", "React", "AWS"], nice_to_have := some [],
    source_url := none, matchScore := 53,
    matchedSkills := ["Python", "React"], missingSkills := ["AWS"] }

/-- Scenario 2 of the spec: empty required list, one nice-to-have skill. -/
def scenario2Job : Job :=
  { title := "Platform Engineer", company := "Beta", location := "Kraków",
    description := "Ship it",
    requirements := some [], nice_to_have := some ["Docker"],
    source_url := none }

/-- The record `analyzeResume` produces for `scenario2Job` against a resume
whose extracted skills are `["Docker"]`. -/
def scenario2Result : MatchResult :=
  { title := "Platform Engineer", company := "Beta", location := "Kraków",
    description := "Ship it",
    requirements := some [], nice_to_have := some ["Docker"],
    source_url := none, matchScore := 0,
    matchedSkills := [], missingSkills := [] }

/-- A catalog entry with both skill-list fields present. -/
def wellFormedJob : Job :=
  { title := "Backend Dev", company := "Delta", location := "Gdańsk",
    description := "APIs", requirements := some ["Docker"],
    nice_to_have := some [], source_url := none }

/-- A catalog entry whose `requirements` field is absent. -/
def malformedJob : Job :=
  { title := "Data Engineer", company := "Gamma", location := "Warsaw",
    description := "Pipelines", requirements := none,
    nice_to_have := some ["Docker"], source_url := none }

/-! ### Substring search, lower-casing and the equivalence test -/

theorem containsSub_iff (needle hay : List Char) :
    containsSub needle hay = true ↔ needle <:+: hay := by
  induction hay with
  | nil => simp [containsSub, List.isEmpty_iff, List.infix_nil]
  | cons c t ih =>
      simp [containsSub, Bool.or_eq_true, List.isPrefixOf_iff_prefix, ih,
        List.infix_cons_iff]

theorem jsIncludes_iff (s sub : String) :
    jsIncludes s sub = true ↔ sub.data <:+: s.data :=
  containsSub_iff sub.data s.data

theorem skillEquiv_iff (a b : String) :
    skillEquiv a b = true ↔
      ((jsToLower a).data <:+: (jsToLower b).data ∨
       (jsToLower b).data <:+: (jsToLower a).data) := by
  rw [skillEquiv, Bool.or_eq_true, jsIncludes_iff, jsIncludes_iff, Or.comm]

theorem skillEquiv_symm (a b : String) : skillEquiv a b = skillEquiv b a := by
  rw [skillEquiv, skillEquiv, Bool.or_comm]

/-- Claim C6. The skill equivalence test used by the scorer is symmetric
containment: it succeeds exactly when the lower-cased form of one string
occurs as a contiguous substring of the lower-cased form of the other; it
is symmetric, and whenever the lower-cased form of `a` occurs inside the
lower-cased form of `b`, a resume skill `a` counts as matching a job skill
`b` and a resume skill `b` counts as matching a job skill `a`. -/
theorem C6_symmetric_containment :
    (∀ a b : String, skillEquiv a b = true ↔
      ((jsToLower a).data <:+: (jsToLower b).data ∨
       (jsToLower b).data <:+: (jsToLower a).data)) ∧
    (∀ a b : String, skillEquiv a b = skillEquiv b a) ∧
    (∀ a b : String, (jsToLower a).data <:+: (jsToLower b).data →
      anyResumeSkillMatches [a] b = true ∧ anyResumeSkillMatches [b] a = true) := by
  refine ⟨skillEquiv_iff, skillEquiv_symm, fun a b h => ?_⟩
  constructor
  · simp [anyResumeSkillMatches, List.any_cons, skillEquiv_iff]
    exact Or.inl h
  · simp [anyResumeSkillMatches, List.any_cons, skillEquiv_iff]
    exact Or.inr h

/-- Witness for C6: "node" lower-cased occurs inside "node.js" lower-cased,
so "Node" and "Node.js" match in both roles. -/
theorem C6_witness :
    anyResumeSkillMatches ["Node"] "Node.js" = true ∧
    anyResumeSkillMatches ["Node.js"] "Node" = true :=
  C6_symmetric_containment.2.2 "Node" "Node.js"
    ((containsSub_iff (jsToLower "Node").data (jsToLower "Node.js").data).mp (by decide))

/-! ### C1: a job with an empty required list scores 0, not its
nice-to-have contribution -/

/-- Claim C1, counterexample. For `requiredSkills = []`,
`niceToHaveSkills = ["Docker"]` and a resume skill set containing
"Docker", `calculateMatchScore` returns 0, not the 20 the claim
predicts: the early return on an empty required list discards the
nice-to-have contribution entirely. -/
theorem C1_counterexample :
    calculateMatchScore ["Docker"] scenario2Job = 0 ∧
    ¬ calculateMatchScore ["Docker"] scenario2Job = 20 := by
  constructor
  · rfl
  · rw [(by rfl : calculateMatchScore ["Docker"] scenario2Job = 0)]
    decide

/-- Claim C1, amended. Whenever the job's required-skill list is empty (or
absent), the scorer returns total score 0: the nice-to-have component does
not contribute at all, so Scenario 2 yields 0 rather than 20. -/
theorem C1_amended (resumeSkills : List String) (job : Job)
    (h : job.requirements.getD [] = []) :
    calculateMatchScore resumeSkills job = 0 := by
  rw [calculateMatchScore, h]
  simp

/-- Witness for C1 amended: Scenario 2's job has an empty required list and
indeed scores 0 against a resume skill set containing "Docker". -/
theorem C1_amended_witness :
    scenario2Job.requirements.getD [] = [] ∧
    calculateMatchScore ["Docker"] scenario2Job = 0 :=
  ⟨by decide, C1_amended ["Docker"] scenario2Job (by decide)⟩

/-! ### C2: matchedSkills is computed from the required list only -/

/-- Claim C2, counterexample. Against Scenario 2's job (required `[]`,
nice-to-have `["Docker"]`) and a resume whose extracted skills are
`["Docker"]`, the produced `matchedSkills` is `[]`, while the union-based
set of the claim is `["Docker"]`: `analyzeResume` passes only
`job.requirements` to `getMatchedSkills`, never the nice-to-have list. -/
theorem C2_counterexample :
    (analyzeResume "I ship with Docker" [scenario2Job]).map
        (List.map MatchResult.matchedSkills) = Except.ok [[]] ∧
    matchedSkillsSpec (extractSkills "I ship with Docker") scenario2Job = ["Docker"] ∧
    ¬ (analyzeResume "I ship with Docker" [scenario2Job]).map
        (List.map MatchResult.matchedSkills) =
      Except.ok [matchedSkillsSpec (extractSkills "I ship with Docker") scenario2Job] := by
  refine ⟨rfl, rfl, ?_⟩
  rw [(by rfl : matchedSkillsSpec (extractSkills "I ship with Docker") scenario2Job = ["Docker"]),
    (by rfl : (analyzeResume "I ship with Docker" [scenario2Job]).map
        (List.map MatchResult.matchedSkills) = Except.ok [[]])]
  simp

/-! ### C3: a record with an absent required-skill list aborts the run -/

/-- A catalog entry whose `nice_to_have` field is absent but whose
`requirements` field is present. -/
def niceAbsentJob : Job :=
  { title := "ML Engineer", company := "Eps", location := "Łódź",
    description := "Models", requirements := some ["Docker"],
    nice_to_have := none, source_url := none }

/-- Claim C3, code bug. `calculateMatchScore` guards both skill lists with
`|| []`, but `analyzeResume` hands the raw `job.requirements` to
`getMatchedSkills`, whose `jobRequirements.filter` throws on `undefined`:
a job with an absent required-skill list aborts the whole run, and even the
well-formed job before it gets no result.  An absent nice-to-have list, by
contrast, is recovered as intended. -/
theorem C3_failing_eval :
    analyzeResume "I ship with Docker" [wellFormedJob, malformedJob] =
      Except.error "TypeError: undefined has no method filter" ∧
    (analyzeResume "I ship with Docker" [niceAbsentJob]).map
        (List.map MatchResult.matchedSkills) = Except.ok [["Docker"]] :=
  ⟨rfl, rfl⟩

/-! ### The ranking sort: permutation, sortedness, stability -/

theorem insertByScoreDesc_perm (x : MatchResult) (l : List MatchResult) :
    (insertByScoreDesc x l).Perm (x :: l) := by
  induction l with
  | nil => exact List.Perm.refl _
  | cons y ys ih =>
      by_cases h : y.matchScore ≤ x.matchScore
      · simp only [insertByScoreDesc, if_pos h]
        exact List.Perm.refl _
      · simp only [insertByScoreDesc, if_neg h]
        exact (List.Perm.cons y ih).trans (List.Perm.swap x y ys)

theorem sortByScoreDesc_perm (l : List MatchResult) : (sortByScoreDesc l).Perm l := by
  induction l with
  | nil => exact List.Perm.refl _
  | cons x xs ih =>
      exact (insertByScoreDesc_perm x (sortByScoreDesc xs)).trans (List.Perm.cons x ih)

theorem insertByScoreDesc_sorted {x : MatchResult} {l : List MatchResult}
    (hl : List.Pairwise (fun a b => b.matchScore ≤ a.matchScore) l) :
    List.Pairwise (fun a b => b.matchScore ≤ a.matchScore) (insertByScoreDesc x l) := by
  induction l with
  | nil => simp [insertByScoreDesc]
  | cons y ys ih =>
      rcases List.pairwise_cons.mp hl with ⟨hy, hys⟩
      by_cases h : y.matchScore ≤ x.matchScore
      · simp only [insertByScoreDesc, if_pos h]
        refine List.pairwise_cons.mpr ⟨?_, hl⟩
        intro z hz
        rcases List.mem_cons.mp hz with rfl | hz2
        · exact h
        · exact le_trans (hy z hz2) h
      · simp only [insertByScoreDesc, if_neg h]
        refine List.pairwise_cons.mpr ⟨?_, ih hys⟩
        intro z hz
        rcases List.mem_cons.mp ((insertByScoreDesc_perm x ys).mem_iff.mp hz) with rfl | hz3
        · exact le_of_not_le h
        · exact hy z hz3

theorem sortByScoreDesc_sorted (l : List MatchResult) :
    List.Pairwise (fun a b => b.matchScore ≤ a.matchScore) (sortByScoreDesc l) := by
  induction l with
  | nil => exact List.Pairwise.nil
  | cons x xs ih => exact insertByScoreDesc_sorted ih

theorem insertByScoreDesc_filter (s : Int) (x : MatchResult) (l : List MatchResult) :
    (insertByScoreDesc x l).filter (fun r => r.matchScore == s) =
      (x :: l).filter (fun r => r.matchScore == s) := by
  induction l with
  | nil => rfl
  | cons y ys ih =>
      by_cases h : y.matchScore ≤ x.matchScore
      · simp only [insertByScoreDesc, if_pos h]
      · simp only [insertByScoreDesc, if_neg h, List.filter_cons, ih]
        by_cases hx : x.matchScore == s
        · by_cases hy : y.matchScore == s
          · exfalso
            have h1 : x.matchScore = s := by simpa using hx
            have h2 : y.matchScore = s := by simpa using hy
            exact h (le_of_eq (h2.trans h1.symm))
          · simp [hx, hy]
        · by_cases hy : y.matchScore == s <;> simp [hx, hy]

theorem sortByScoreDesc_filter (s : Int) (l : List MatchResult) :
    (sortByScoreDesc l).filter (fun r => r.matchScore == s) =
      l.filter (fun r => r.matchScore == s) := by
  induction l with
  | nil => rfl
  | cons x xs ih =>
      calc (insertByScoreDesc x (sortByScoreDesc xs)).filter (fun r => r.matchScore == s)
          = (x :: sortByScoreDesc xs).filter (fun r => r.matchScore == s) :=
            insertByScoreDesc_filter s x (sortByScoreDesc xs)
        _ = (x :: xs).filter (fun r => r.matchScore == s) := by
            rw [List.filter_cons, List.filter_cons, ih]

/-! ### Inversion principles for the matching run -/

theorem buildMatches_ok_forall2 {rs : List String} {jobs : List Job} {ms : List MatchResult}
    (h : buildMatches rs jobs = Except.ok ms) :
    List.Forall₂ (fun job r => mkMatchResult rs job = Except.ok r) jobs ms := by
  induction jobs generalizing ms with
  | nil =>
      simp only [buildMatches, Except.ok.injEq] at h
      subst h
      exact List.Forall₂.nil
  | cons j js ih =>
      cases hm : mkMatchResult rs j with
      | error e => simp [buildMatches, hm] at h
      | ok r =>
          cases hb : buildMatches rs js with
          | error e => simp [buildMatches, hm, hb] at h
          | ok rest =>
              simp only [buildMatches, hm, hb, Except.ok.injEq] at h
              subst h
              exact List.Forall₂.cons hm (ih hb)

theorem mkMatchResult_ok_iff {rs : List String} {job : Job} {r : MatchResult} :
    mkMatchResult rs job = Except.ok r ↔
      ∃ reqs, job.requirements = some reqs ∧
        r = { title := job.title, company := job.company, location := job.location,
              description := job.description, requirements := job.requirements,
              nice_to_have := job.nice_to_have, source_url := job.source_url,
              matchScore := calculateMatchScore rs job,
              matchedSkills := getMatchedSkills rs reqs,
              missingSkills := getMissingSkills rs reqs } := by
  cases hr : job.requirements with
  | none => simp [mkMatchResult, hr]
  | some reqs =>
      simp only [mkMatchResult, hr, Except.ok.injEq, Option.some.injEq]
      constructor
      · intro h
        exact ⟨reqs, rfl, h.symm⟩
      · rintro ⟨reqs2, rfl, h⟩
        exact h.symm

theorem analyzeResume_ok_iff {c : String} {jobs : List Job} {results : List MatchResult} :
    analyzeResume c jobs = Except.ok results ↔
      ∃ ms, buildMatches (extractSkills c) jobs = Except.ok ms ∧
        results = sortByScoreDesc ms := by
  cases hb : buildMatches (extractSkills c) jobs with
  | error e => simp [analyzeResume, hb]
  | ok ms =>
      simp only [analyzeResume, hb, Except.ok.injEq, Except.error.injEq]
      constructor
      · intro h
        exact ⟨ms, rfl, h.symm⟩
      · rintro ⟨ms2, h2, h⟩
        subst h2
        exact h.symm

theorem forall2_mem_right {R : Job → MatchResult → Prop} {jobs : List Job}
    {ms : List MatchResult} (h : List.Forall₂ R jobs ms) {r : MatchResult}
    (hr : r ∈ ms) : ∃ j ∈ jobs, R j r := by
  induction h with
  | nil => cases hr
  | cons hR hrest ih =>
      rcases List.mem_cons.mp hr with rfl | hr2
      · exact ⟨_, List.mem_cons_self _ _, hR⟩
      · rcases ih hr2 with ⟨j, hj, hRj⟩
        exact ⟨j, List.mem_cons_of_mem _ hj, hRj⟩

theorem analyzeResume_ok_mem {c : String} {jobs : List Job} {results : List MatchResult}
    (h : analyzeResume c jobs = Except.ok results) {r : MatchResult}
    (hr : r ∈ results) :
    ∃ j ∈ jobs, mkMatchResult (extractSkills c) j = Except.ok r := by
  rcases analyzeResume_ok_iff.mp h with ⟨ms, hb, rfl⟩
  exact forall2_mem_right (buildMatches_ok_forall2 hb)
    ((sortByScoreDesc_perm ms).mem_iff.mp hr)

/-! ### C4: descending, stable ranking -/

/-- Two catalog entries that tie at score 0. -/
def tieJobA : Job :=
  { title := "JobA", company := "Alpha", location := "Remote",
    description := "first", requirements := some [], nice_to_have := some [],
    source_url := none }

/-- Second of the two tying catalog entries. -/
def tieJobB : Job :=
  { title := "JobB", company := "Beta", location := "Remote",
    description := "second", requirements := some [], nice_to_have := some [],
    source_url := none }

/-- The result record for `tieJobA`. -/
def tieResultA : MatchResult :=
  { title := "JobA", company := "Alpha", location := "Remote",
    description := "first", requirements := some [], nice_to_have := some [],
    source_url := none, matchScore := 0, matchedSkills := [], missingSkills := [] }

/-- The result record for `tieJobB`. -/
def tieResultB : MatchResult :=
  { title := "JobB", company := "Beta", location := "Remote",
    description := "second", requirements := some [], nice_to_have := some [],
    source_url := none, matchScore := 0, matchedSkills := [], missingSkills := [] }

/-- Claim C4. The output of `analyzeResume` is sorted by score descending,
and the sort is stable: restricted to any fixed score `s`, the output
sequence coincides with the catalog-ordered sequence `ms` of per-job
results, so jobs with equal scores keep their relative catalog order. -/
theorem C4_stable_sort (resumeContent : String) (jobs : List Job)
    (results ms : List MatchResult)
    (h : analyzeResume resumeContent jobs = Except.ok results)
    (hb : buildMatches (extractSkills resumeContent) jobs = Except.ok ms) :
    List.Pairwise (fun a b => b.matchScore ≤ a.matchScore) results ∧
    List.Forall₂ (fun job r => mkMatchResult (extractSkills resumeContent) job = Except.ok r)
      jobs ms ∧
    ∀ s : Int, results.filter (fun r => r.matchScore == s) =
      ms.filter (fun r => r.matchScore == s) := by
  rcases analyzeResume_ok_iff.mp h with ⟨ms2, hb2, rfl⟩
  rw [hb2] at hb
  have hms : ms2 = ms := by injection hb
  subst hms
  exact ⟨sortByScoreDesc_sorted ms2, buildMatches_ok_forall2 hb2,
    fun s => sortByScoreDesc_filter s ms2⟩

/-- Witness for C4: a two-job catalog whose entries tie at score 0 keeps
the catalog order `[tieResultA, tieResultB]` in the output. -/
theorem C4_witness :
    List.Pairwise (fun a b => b.matchScore ≤ a.matchScore) [tieResultA, tieResultB] ∧
    List.filter (fun r => r.matchScore == 0) [tieResultA, tieResultB] =
      List.filter (fun r => r.matchScore == 0) [tieResultA, tieResultB] :=
  ⟨(C4_stable_sort "" [tieJobA, tieJobB] [tieResultA, tieResultB]
      [tieResultA, tieResultB] rfl rfl).1,
   (C4_stable_sort "" [tieJobA, tieJobB] [tieResultA, tieResultB]
      [tieResultA, tieResultB] rfl rfl).2.2 0⟩

/-! ### C10: one result per job, job fields carried over unchanged -/

/-- Claim C10. The matching run yields exactly one result per catalog entry:
the output is a permutation of the catalog-ordered result list `ms`, which
corresponds one-to-one with the job list, and each result carries its
source job's seven fields unchanged, with the three computed fields
determined by the scorer and the matched/missing derivations. -/
theorem C10_frame (resumeContent : String) (jobs : List Job)
    (results ms : List MatchResult)
    (h : analyzeResume resumeContent jobs = Except.ok results)
    (hb : buildMatches (extractSkills resumeContent) jobs = Except.ok ms) :
    results.Perm ms ∧
    List.Forall₂ (fun (job : Job) (r : MatchResult) =>
      r.title = job.title ∧ r.company = job.company ∧ r.location = job.location ∧
      r.description = job.description ∧ r.requirements = job.requirements ∧
      r.nice_to_have = job.nice_to_have ∧ r.source_url = job.source_url ∧
      r.matchScore = calculateMatchScore (extractSkills resumeContent) job ∧
      r.matchedSkills =
        getMatchedSkills (extractSkills resumeContent) (job.requirements.getD []) ∧
      r.missingSkills =
        getMissingSkills (extractSkills resumeContent) (job.requirements.getD []))
      jobs ms := by
  rcases analyzeResume_ok_iff.mp h with ⟨ms2, hb2, rfl⟩
  rw [hb2] at hb
  have hms : ms2 = ms := by injection hb
  subst hms
  refine ⟨sortByScoreDesc_perm ms2, ?_⟩
  refine (buildMatches_ok_forall2 hb2).imp ?_
  intro job r hok
  rcases mkMatchResult_ok_iff.mp hok with ⟨reqs, hreq, rfl⟩
  simp [hreq]

/-- Witness for C10 on a one-job catalog. -/
theorem C10_witness :
    [scenario2Result].Perm [scenario2Result] ∧
    List.Forall₂ (fun (job : Job) (r : MatchResult) =>
      r.title = job.title ∧ r.company = job.company ∧ r.location = job.location ∧
      r.description = job.description ∧ r.requirements = job.requirements ∧
      r.nice_to_have = job.nice_to_have ∧ r.source_url = job.source_url ∧
      r.matchScore = calculateMatchScore (extractSkills "") job ∧
      r.matchedSkills = getMatchedSkills (extractSkills "") (job.requirements.getD []) ∧
      r.missingSkills = getMissingSkills (extractSkills "") (job.requirements.getD []))
      [scenario2Job] [scenario2Result] :=
  C10_frame "" [scenario2Job] [scenario2Result] [scenario2Result] rfl rfl

/-! ### C2 amended: matchedSkills characterised over the required list -/

/-- Claim C2, amended. Each result's `matchedSkills` consists of exactly those
skills of the job's `requirements` list (only — the nice-to-have list does
not feed it) that the equivalence test relates to some extracted resume
skill. -/
theorem C2_amended (resumeContent : String) (jobs : List Job)
    (results : List MatchResult)
    (h : analyzeResume resumeContent jobs = Except.ok results) :
    ∀ r ∈ results, ∃ job ∈ jobs, ∃ reqs, job.requirements = some reqs ∧
      ∀ s, s ∈ r.matchedSkills ↔
        s ∈ reqs ∧ anyResumeSkillMatches (extractSkills resumeContent) s = true := by
  intro r hr
  rcases analyzeResume_ok_mem h hr with ⟨j, hj, hm⟩
  rcases mkMatchResult_ok_iff.mp hm with ⟨reqs, hreq, rfl⟩
  refine ⟨j, hj, reqs, hreq, fun s => ?_⟩
  simp [getMatchedSkills, List.mem_filter]

/-- Witness for C2 amended at Scenario 2's job: the required list is
empty, so nothing is matched even though "Docker" is a nice-to-have hit. -/
theorem C2_amended_witness :
    "Docker" ∈ scenario2Result.matchedSkills ↔
      "Docker" ∈ ([] : List String) ∧
        anyResumeSkillMatches (extractSkills "I ship with Docker") "Docker" = true := by
  rcases C2_amended "I ship with Docker" [scenario2Job] [scenario2Result] rfl
      scenario2Result (by decide) with ⟨j, hj, reqs, hreq, hiff⟩
  have hj2 : j = scenario2Job := by simpa using hj
  subst hj2
  have hreqs : reqs = [] := by
    have h2 : some ([] : List String) = some reqs := hreq
    injection h2 with h3
    exact h3.symm
  subst hreqs
  exact hiff "Docker"

/-! ### C9: matched and missing partition the required list -/

/-- Claim C9. For a job whose required list is present, the result's
`matchedSkills` and `missingSkills` are order-preserving sublists of
`requirements`, every required skill lands in exactly one of the two, and
no skill is in both. -/
theorem C9_partition (resumeSkills : List String) (job : Job)
    (reqs : List String) (r : MatchResult)
    (hreq : job.requirements = some reqs)
    (hok : mkMatchResult resumeSkills job = Except.ok r) :
    r.matchedSkills.Sublist reqs ∧ r.missingSkills.Sublist reqs ∧
    (∀ s, s ∈ reqs ↔ (s ∈ r.matchedSkills ∨ s ∈ r.missingSkills)) ∧
    (∀ s, ¬ (s ∈ r.matchedSkills ∧ s ∈ r.missingSkills)) := by
  rcases mkMatchResult_ok_iff.mp hok with ⟨reqs2, hreq2, rfl⟩
  rw [hreq] at hreq2
  have h2 : reqs = reqs2 := by injection hreq2
  subst h2
  refine ⟨List.filter_sublist _, List.filter_sublist _, fun s => ?_, fun s => ?_⟩
  · cases hB : anyResumeSkillMatches resumeSkills s <;>
      simp [getMatchedSkills, getMissingSkills, List.mem_filter, hB]
  · cases hB : anyResumeSkillMatches resumeSkills s <;>
      simp [getMatchedSkills, getMissingSkills, List.mem_filter, hB]

/-- The result record for `wellFormedJob` against resume skills
`["Docker"]`. -/
def wellFormedResult : MatchResult :=
  { title := "Backend Dev", company := "Delta", location := "Gdańsk",
    description := "APIs", requirements := some ["Docker"],
    nice_to_have := some [], source_url := none,
    matchScore := calculateMatchScore ["Docker"] wellFormedJob,
    matchedSkills := ["Docker"], missingSkills := [] }

/-- Witness for C9 on a one-required-skill job: "Docker" is matched and
not missing. -/
theorem C9_witness :
    wellFormedResult.matchedSkills.Sublist ["Docker"] ∧
    ("Docker" ∈ ["Docker"] ↔
      ("Docker" ∈ wellFormedResult.matchedSkills ∨
       "Docker" ∈ wellFormedResult.missingSkills)) ∧
    ¬ ("Docker" ∈ wellFormedResult.matchedSkills ∧
       "Docker" ∈ wellFormedResult.missingSkills) :=
  ⟨(C9_partition ["Docker"] wellFormedJob ["Docker"] wellFormedResult rfl rfl).1,
   (C9_partition ["Docker"] wellFormedJob ["Docker"] wellFormedResult rfl rfl).2.2.1 "Docker",
   (C9_partition ["Docker"] wellFormedJob ["Docker"] wellFormedResult rfl rfl).2.2.2 "Docker"⟩

/-! ### Score bounds -/

theorem jsRound_nonneg {q : ℚ} (h : 0 ≤ q) : 0 ≤ jsRound q := by
  rw [jsRound]
  exact Int.le_floor.mpr (by push_cast; linarith)

theorem jsRound_le_hundred {q : ℚ} (h : q ≤ 100) : jsRound q ≤ 100 := by
  rw [jsRound]
  have h2 : ⌊q + 1 / 2⌋ < 101 := Int.floor_lt.mpr (by push_cast; linarith)
  omega

theorem jsRound_zero : jsRound 0 = 0 := by
  rw [jsRound]
  norm_num

theorem calculateMatchScore_range (resumeSkills : List String) (job : Job) :
    0 ≤ calculateMatchScore resumeSkills job ∧
      calculateMatchScore resumeSkills job ≤ 100 := by
  by_cases h0 : (job.requirements.getD []).length = 0
  · simp [calculateMatchScore, h0]
  · simp only [calculateMatchScore, if_neg h0]
    set m := ((job.requirements.getD []).filter (anyResumeSkillMatches resumeSkills)).length with hm
    set n := (job.requirements.getD []).length with hn
    set k := ((job.nice_to_have.getD []).filter (anyResumeSkillMatches resumeSkills)).length with hk
    set p := max (job.nice_to_have.getD []).length 1 with hp
    have hmn : m ≤ n := List.length_filter_le _ _
    have hnpos : 0 < n := Nat.pos_of_ne_zero h0
    have hkp : k ≤ p := le_trans (List.length_filter_le _ _) (le_max_left _ _)
    have hppos : 0 < p := lt_of_lt_of_le Nat.one_pos (le_max_right _ _)
    have h1 : (m : ℚ) / (n : ℚ) ≤ 1 := by
      rw [div_le_one (by exact_mod_cast hnpos)]
      exact_mod_cast hmn
    have h2 : (k : ℚ) / (p : ℚ) ≤ 1 := by
      rw [div_le_one (by exact_mod_cast hppos)]
      exact_mod_cast hkp
    have h3 : (0 : ℚ) ≤ (m : ℚ) / (n : ℚ) := by positivity
    have h4 : (0 : ℚ) ≤ (k : ℚ) / (p : ℚ) := by positivity
    constructor
    · exact jsRound_nonneg (by nlinarith)
    · exact jsRound_le_hundred (by nlinarith)

/-- Claim C7. The score is an integer between 0 and 100: the scorer itself
satisfies the bounds for every job (skill lists present, empty or absent),
and so does the `matchScore` field of every record a successful matching
run returns. -/
theorem C7_score_range :
    (∀ (resumeSkills : List String) (job : Job),
      0 ≤ calculateMatchScore resumeSkills job ∧
        calculateMatchScore resumeSkills job ≤ 100) ∧
    ∀ (resumeContent : String) (jobs : List Job) (results : List MatchResult),
      analyzeResume resumeContent jobs = Except.ok results →
      ∀ r ∈ results, 0 ≤ r.matchScore ∧ r.matchScore ≤ 100 := by
  refine ⟨calculateMatchScore_range, ?_⟩
  intro resumeContent jobs results h r hr
  rcases analyzeResume_ok_mem h hr with ⟨j, hj, hm⟩
  rcases mkMatchResult_ok_iff.mp hm with ⟨reqs, hreq, rfl⟩
  simpa using calculateMatchScore_range (extractSkills resumeContent) j

/-- Witness for C7 on a concrete successful run. -/
theorem C7_witness :
    0 ≤ scenario2Result.matchScore ∧ scenario2Result.matchScore ≤ 100 :=
  C7_score_range.2 "" [scenario2Job] [scenario2Result] rfl scenario2Result
    (by decide)

/-! ### C8: the empty resume -/

theorem extractSkills_empty : extractSkills "" = [] := by decide

theorem calculateMatchScore_nil_resume (job : Job) :
    calculateMatchScore [] job = 0 := by
  by_cases h0 : (job.requirements.getD []).length = 0
  · simp [calculateMatchScore, h0]
  · have h1 : ∀ l : List String, l.filter (anyResumeSkillMatches []) = [] :=
      fun l => List.filter_eq_nil_iff.mpr (fun a _ => by simp [anyResumeSkillMatches])
    simp [calculateMatchScore, h0, h1, jsRound_zero]

/-- Claim C8. The empty resume text yields the empty skill set, and a
successful matching run of a non-empty catalog against it gives every
result score 0, no matched skills, and `missingSkills` equal to the source
job's full required list. -/
theorem C8_empty_resume :
    extractSkills "" = [] ∧
    ∀ (jobs : List Job) (results : List MatchResult), jobs ≠ [] →
      analyzeResume "" jobs = Except.ok results →
      ∀ r ∈ results, r.matchScore = 0 ∧ r.matchedSkills = [] ∧
        ∃ job ∈ jobs, job.requirements = some r.missingSkills := by
  refine ⟨extractSkills_empty, ?_⟩
  intro jobs results hne h r hr
  rcases analyzeResume_ok_mem h hr with ⟨j, hj, hm⟩
  rcases mkMatchResult_ok_iff.mp hm with ⟨reqs, hreq, rfl⟩
  have hscore : calculateMatchScore (extractSkills "") j = 0 := by
    rw [extractSkills_empty, calculateMatchScore_nil_resume]
  have hmatched : getMatchedSkills (extractSkills "") reqs = [] :=
    List.filter_eq_nil_iff.mpr
      (fun a _ => by rw [extractSkills_empty]; simp [anyResumeSkillMatches])
  have hmissing : getMissingSkills (extractSkills "") reqs = reqs :=
    List.filter_eq_self.mpr
      (fun a _ => by rw [extractSkills_empty]; simp [anyResumeSkillMatches])
  refine ⟨hscore, hmatched, j, hj, ?_⟩
  show j.requirements = some (getMissingSkills (extractSkills "") reqs)
  rw [hmissing]
  exact hreq

/-- Witness for C8 on a one-job catalog. -/
theorem C8_witness :
    extractSkills "" = [] ∧
    (scenario2Result.matchScore = 0 ∧ scenario2Result.matchedSkills = [] ∧
      ∃ job ∈ [scenario2Job], job.requirements = some scenario2Result.missingSkills) :=
  ⟨C8_empty_resume.1,
   C8_empty_resume.2 [scenario2Job] [scenario2Result] (List.cons_ne_nil _ _) rfl
     scenario2Result (by decide)⟩

/-! ### C5: the weighted score formula and Scenario 1 -/

/-- Claim C5. With a non-empty required list, the score is the rounded sum of
the 80-weighted required fraction and the 20-weighted nice-to-have
fraction (denominator `max(countNice, 1)`); on Scenario 1's input the run
produces matchedSkills `["Python", "React"]`, missingSkills `["AWS"]`, and
score `round((2/3)*80) = 53`. -/
theorem C5_score_formula :
    (∀ (resumeSkills : List String) (job : Job),
      0 < (job.requirements.getD []).length →
      calculateMatchScore resumeSkills job =
        jsRound
          ((((job.requirements.getD []).filter
                (anyResumeSkillMatches resumeSkills)).length : ℚ) /
              ((job.requirements.getD []).length : ℚ) * 80 +
            (((job.nice_to_have.getD []).filter
                (anyResumeSkillMatches resumeSkills)).length : ℚ) /
              ((max (job.nice_to_have.getD []).length 1 : Nat) : ℚ) * 20)) ∧
    analyzeResume "I use Python and React daily" [scenario1Job] =
      Except.ok [scenario1Result] := by
  constructor
  · intro rs job hpos
    simp only [calculateMatchScore, if_neg (Nat.pos_iff_ne_zero.mp hpos)]
  · have hscore :
        calculateMatchScore (extractSkills "I use Python and React daily")
          scenario1Job = 53 := by
      norm_num +decide [calculateMatchScore, jsRound, extractSkills, scenario1Job]
    have base : analyzeResume "I use Python and React daily" [scenario1Job] =
        Except.ok
          [{ title := "Fullstack Engineer", company := "Acme", location := "Remote",
             description := "Build the product",
             requirements := some ["Python", "React", "AWS"],
             nice_to_have := some [], source_url := none,
             matchScore :=
               calculateMatchScore (extractSkills "I use Python and React daily")
                 scenario1Job,
             matchedSkills := ["Python", "React"], missingSkills := ["AWS"] }] := rfl
    rw [hscore] at base
    exact base

/-- Witness for C5: Scenario 1's job has three required skills, so the
formula applies to it. -/
theorem C5_witness :
    0 < (scenario1Job.requirements.getD []).length ∧
    calculateMatchScore ["Python"] scenario1Job =
      jsRound
        ((((scenario1Job.requirements.getD []).filter
              (anyResumeSkillMatches ["Python"])).length : ℚ) /
            ((scenario1Job.requirements.getD []).length : ℚ) * 80 +
          (((scenario1Job.nice_to_have.getD []).filter
              (anyResumeSkillMatches ["Python"])).length : ℚ) /
            ((max (scenario1Job.nice_to_have.getD []).length 1 : Nat) : ℚ) * 20) :=
  ⟨by decide, C5_score_formula.1 ["Python"] scenario1Job (by decide)⟩

end SmartResumeMatcher
